import Mathlib

/-!
Verification development for the audio-transcriber repository.

The repository is TypeScript; the relevant server modules are embedded
shallowly below:

* `src/server/diarization.ts` — `identifySpeakers` and its fallback chain;
* `src/server/summary.ts` — `generateSummary`;
* `src/unnamed/part_000` — `transcribeAudio`, `compressAudioFile`, and the
  `POST /api/transcribe` handler registered by `registerRoutes` (the variant
  with compression);
* `src/server/routes.ts` — the simple `POST /api/transcribe` handler.

Modelling conventions:

* Upstream model replies are quantified as raw strings; the JavaScript
  `JSON.parse` is embedded as the executable `jsonParse` below.  JSON numbers
  are modelled at integer precision (the fractional part of a number only
  influences truthiness corner cases none of the code below inspects).
  String indices are Unicode code points (the code is exercised on ASCII).
* The filesystem is a finite association list from paths to byte sizes;
  the ffmpeg shell-out and the external speech/LLM services are oracles
  (parameters describing the one observable behaviour of the call).
* JavaScript exceptions are `Except` values; a `try`/`catch` is a `match`
  on the propagated value.  Floating-point message formatting
  (`toFixed(2)`) is approximated by exact rational rounding in `fmtMB`;
  no claim depends on the digits.
-/

/-- A JavaScript value produced by `JSON.parse`.  Object member lists are
deduplicated on construction (later duplicate keys overwrite earlier ones,
as in JavaScript). -/
inductive Json where
  | null
  | bool (b : Bool)
  | num (n : Int)
  | str (s : String)
  | arr (elems : List Json)
  | obj (fields : List (String × Json))
deriving Inhabited

/-- The whitespace characters `JSON.parse` skips between tokens. -/
def jsonWsChar (c : Char) : Bool :=
  c = ' ' || c = '\t' || c = '\n' || c = '\r'

/-- Drop insignificant whitespace. -/
def skipJsonWs (cs : List Char) : List Char := cs.dropWhile jsonWsChar

/-- Hexadecimal digit value, for string escapes (via code points: 48-57
are digits, 97-102 lowercase, 65-70 uppercase). -/
def hexDigitVal (c : Char) : Option Nat :=
  let n := c.toNat
  if 48 ≤ n && n ≤ 57 then some (n - 48)
  else if 97 ≤ n && n ≤ 102 then some (n - 87)
  else if 65 ≤ n && n ≤ 70 then some (n - 55)
  else none

/-- Parse the body of a JSON string literal (the opening quote already
consumed), returning the decoded characters and the remaining input. -/
def parseJStr : Nat → List Char → Option (List Char × List Char)
  | 0, _ => none
  | _, [] => none
  | fuel + 1, c :: rest =>
    if c = '"' then some ([], rest)
    else if c = '\\' then
      match rest with
      | [] => none
      | e :: rest1 =>
        let decoded : Option (Char × List Char) :=
          if e = '"' then some ('"', rest1)
          else if e = '\\' then some ('\\', rest1)
          else if e = '/' then some ('/', rest1)
          else if e = 'n' then some ('\n', rest1)
          else if e = 't' then some ('\t', rest1)
          else if e = 'r' then some ('\r', rest1)
          else if e = 'b' then some (Char.ofNat 8, rest1)
          else if e = 'f' then some (Char.ofNat 12, rest1)
          else if e = 'u' then
            match rest1 with
            | h1 :: h2 :: h3 :: h4 :: rest2 =>
              match hexDigitVal h1, hexDigitVal h2, hexDigitVal h3, hexDigitVal h4 with
              | some a, some b, some c3, some d =>
                some (Char.ofNat (((a * 16 + b) * 16 + c3) * 16 + d), rest2)
              | _, _, _, _ => none
            | _ => none
          else none
        match decoded with
        | none => none
        | some (ch, rest2) =>
          match parseJStr fuel rest2 with
          | none => none
          | some (body, rest3) => some (ch :: body, rest3)
    else if c.toNat < 32 then none
    else
      match parseJStr fuel rest with
      | none => none
      | some (body, rest1) => some (c :: body, rest1)

/-- Parse a JSON number at integer precision: an optional sign and digits;
a fraction or exponent is consumed syntactically but does not change the
stored integer part. -/
def parseJNum (cs : List Char) : Option (Json × List Char) :=
  let sign : Bool × List Char :=
    match cs with
    | '-' :: rest => (true, rest)
    | _ => (false, cs)
  let digits := sign.2.takeWhile Char.isDigit
  let rest0 := sign.2.dropWhile Char.isDigit
  if digits.isEmpty then none
  else
    let n : Nat := digits.foldl (fun a c => a * 10 + (c.toNat - '0'.toNat)) 0
    let afterFrac : Option (List Char) :=
      match rest0 with
      | '.' :: r =>
        if (r.takeWhile Char.isDigit).isEmpty then none
        else some (r.dropWhile Char.isDigit)
      | _ => some rest0
    match afterFrac with
    | none => none
    | some r1 =>
      let afterExp : Option (List Char) :=
        match r1 with
        | 'e' :: r | 'E' :: r =>
          let r2 := match r with
            | '+' :: x => x
            | '-' :: x => x
            | _ => r
          if (r2.takeWhile Char.isDigit).isEmpty then none
          else some (r2.dropWhile Char.isDigit)
        | _ => some r1
      match afterExp with
      | none => none
      | some r3 =>
        some (.num (if sign.1 then -(n : Int) else (n : Int)), r3)

/-- Insert a member into an object body, JavaScript style: a repeated key
keeps its first position but takes the last value. -/
def objInsert (fields : List (String × Json)) (k : String) (v : Json) :
    List (String × Json) :=
  if fields.any (fun e => e.1 = k) then
    fields.map (fun e => if e.1 = k then (k, v) else e)
  else fields ++ [(k, v)]

/-- Deduplicate parsed object members, later keys overwriting earlier ones. -/
def dedupeFields (fields : List (String × Json)) : List (String × Json) :=
  fields.foldl (fun acc e => objInsert acc e.1 e.2) []

/-- The three keyword tokens of JSON, recognised by explicit prefix
comparison. -/
def jsonKeyword (cs : List Char) : Option (Json × List Char) :=
  if cs.take 4 = "null".data then some (.null, cs.drop 4)
  else if cs.take 4 = "true".data then some (.bool true, cs.drop 4)
  else if cs.take 5 = "false".data then some (.bool false, cs.drop 5)
  else none

mutual

/-- Parse one JSON value.  Fuel makes the recursion structural. -/
def parseJValue : Nat → List Char → Option (Json × List Char)
  | 0, _ => none
  | fuel + 1, cs =>
    match jsonKeyword (skipJsonWs cs) with
    | some jr => some jr
    | none =>
    match skipJsonWs cs with
    | '"' :: rest =>
      match parseJStr (fuel + 1) rest with
      | none => none
      | some (body, rest1) => some (.str (String.mk body), rest1)
    | '[' :: rest =>
      (match skipJsonWs rest with
       | ']' :: rest1 => some (.arr [], rest1)
       | _ =>
         match parseJItems fuel rest with
         | none => none
         | some (items, rest1) => some (.arr items, rest1))
    | '{' :: rest =>
      (match skipJsonWs rest with
       | '}' :: rest1 => some (.obj [], rest1)
       | _ =>
         match parseJMembers fuel rest with
         | none => none
         | some (fields, rest1) => some (.obj (dedupeFields fields), rest1))
    | c :: rest =>
      if c = '-' || c.isDigit then parseJNum (c :: rest) else none
    | [] => none

/-- Parse the items of a non-empty array body up to the closing bracket. -/
def parseJItems : Nat → List Char → Option (List Json × List Char)
  | 0, _ => none
  | fuel + 1, cs =>
    match parseJValue fuel cs with
    | none => none
    | some (v, rest) =>
      match skipJsonWs rest with
      | ',' :: rest1 =>
        (match parseJItems fuel rest1 with
         | none => none
         | some (items, rest2) => some (v :: items, rest2))
      | ']' :: rest1 => some ([v], rest1)
      | _ => none

/-- Parse the members of a non-empty object body up to the closing brace. -/
def parseJMembers : Nat → List Char → Option (List (String × Json) × List Char)
  | 0, _ => none
  | fuel + 1, cs =>
    match skipJsonWs cs with
    | '"' :: rest =>
      (match parseJStr (fuel + 1) rest with
       | none => none
       | some (key, rest1) =>
         match skipJsonWs rest1 with
         | ':' :: rest2 =>
           (match parseJValue fuel rest2 with
            | none => none
            | some (v, rest3) =>
              match skipJsonWs rest3 with
              | ',' :: rest4 =>
                (match parseJMembers fuel rest4 with
                 | none => none
                 | some (fields, rest5) =>
                   some ((String.mk key, v) :: fields, rest5))
              | '}' :: rest4 => some ([(String.mk key, v)], rest4)
              | _ => none)
         | _ => none)
    | _ => none

end

/-- The embedding of JavaScript `JSON.parse`: `none` means the call throws. -/
def jsonParse (s : String) : Option Json :=
  match parseJValue (s.length + 1) s.data with
  | some (j, rest) => if skipJsonWs rest = [] then some j else none
  | none => none

/-! ### JavaScript value helpers used by the embedded server code -/

/-- JavaScript truthiness of a parsed value. -/
def truthy : Json → Bool
  | .null => false
  | .bool b => b
  | .num n => n ≠ 0
  | .str s => s ≠ ""
  | .arr _ => true
  | .obj _ => true

/-- Property read that never throws: an object looks the key up, anything
else (including arrays and primitives) yields `undefined`, i.e. `none`. -/
def jsField : Json → String → Option Json
  | .obj fields, k => (fields.find? (fun e => e.1 = k)).map (fun e => e.2)
  | _, _ => none

/-- JavaScript property access `v[k]`: throws (`.error`) on `null`,
otherwise reads the property (absent gives `undefined`, i.e. `ok none`). -/
def jsGet : Json → String → Except Unit (Option Json)
  | .null, _ => .error ()
  | j, k => .ok (jsField j k)

/-- The JavaScript `in` operator on a parsed value (property existence). -/
def hasField (j : Json) (k : String) : Bool := (jsField j k).isSome

/-- The `.length` property: strings and arrays have one, nothing else does. -/
def jsLength : Json → Option Nat
  | .str s => some s.length
  | .arr xs => some xs.length
  | _ => none

mutual

/-- JavaScript `String(v)` coercion of a parsed value. -/
def jsToString : Json → String
  | .null => "null"
  | .bool b => if b then "true" else "false"
  | .num n => toString n
  | .str s => s
  | .arr xs => String.intercalate "," (jsToStringItems xs)
  | .obj _ => "[object Object]"

/-- Array elements under `Array.prototype.join`: `null` renders empty. -/
def jsToStringItems : List Json → List String
  | [] => []
  | .null :: rest => "" :: jsToStringItems rest
  | j :: rest => jsToString j :: jsToStringItems rest

end

/-- Substring membership, the embedding of `String.prototype.includes`. -/
def strContains (s pat : String) : Bool :=
  (List.range (s.data.length + 1)).any
    (fun i => pat.data.isPrefixOf (s.data.drop i))

/-- ASCII whitespace, the fragment of `\s` and of `trim` exercised here. -/
def wsChar (c : Char) : Bool :=
  c = ' ' || c = '\t' || c = '\n' || c = '\r'

/-- `String.prototype.trim` over the character list. -/
def strTrim (s : String) : String :=
  String.mk (((s.data.dropWhile wsChar).reverse.dropWhile wsChar).reverse)

/-- `String.prototype.endsWith`. -/
def strEndsWith (s suffix : String) : Bool :=
  suffix.data.reverse.isPrefixOf s.data.reverse

/-- ASCII lowercasing of one character. -/
def charToLower (c : Char) : Char :=
  if 'A' ≤ c && c ≤ 'Z' then Char.ofNat (c.toNat + 32) else c

/-- `String.prototype.toLowerCase` (ASCII fragment). -/
def strToLower (s : String) : String :=
  String.mk (s.data.map charToLower)

/-- `String.prototype.substring(a, b)` for `a ≤ b` (both clamped). -/
def jsSubstring (s : String) (a b : Nat) : String :=
  String.mk ((s.data.take b).drop a)

/-- `String.prototype.substring(a)`. -/
def jsSubstringFrom (s : String) (a : Nat) : String :=
  String.mk (s.data.drop a)

/-- First index of `pat` in `s` at or after `start`, `-1` when absent:
the embedding of `String.prototype.indexOf(pat, start)` for non-empty
patterns. -/
def jsIndexOfFrom (s pat : String) (start : Nat) : Int :=
  match (List.range (s.data.length + 1)).find?
      (fun i => start ≤ i && pat.data.isPrefixOf (s.data.drop i)) with
  | some i => (i : Int)
  | none => -1

/-! ### Diarization (`src/server/diarization.ts`, `identifySpeakers`) -/

/-- One constructed speaker segment, as the JSON object the code builds. -/
def mkSeg (speaker text : String) : Json :=
  .obj [("speaker", .str speaker), ("text", .str text)]

/-- Whitespace class of the `\s` regex atom (ASCII fragment). -/
def isWsChar (c : Char) : Bool :=
  c = ' ' || c = '\t' || c = '\n' || c = '\r'

/-- Sentence-final punctuation recognised by the splitting regexes. -/
def isSentEnd (c : Char) : Bool := c = '.' || c = '?' || c = '!'

/-- Core of the split on `(?<=\.|\?|\!)\s+`: a separator is a maximal
whitespace run whose preceding character is sentence-final punctuation.
`prev` is the character just before the current position.  Each step
consumes at least one character, so fuel of one more than the input
length is never exhausted. -/
def splitSentLoop : Nat → List Char → Option Char → List Char → List String
  | 0, _, _, acc => [String.mk acc.reverse]
  | fuel + 1, cs, prev, acc =>
    match cs with
    | [] => [String.mk acc.reverse]
    | c :: rest =>
      if isWsChar c &&
          (match prev with | some p => isSentEnd p | none => false) then
        String.mk acc.reverse ::
          splitSentLoop fuel (rest.dropWhile isWsChar) (some c) []
      else
        splitSentLoop fuel rest (some c) (c :: acc)

/-- `text.split(/(?<=\.|\?|\!)\s+/g).filter(s => s.trim().length > 0)`. -/
def splitSentences (t : String) : List String :=
  (splitSentLoop (t.data.length + 1) t.data none []).filter
    (fun s => (strTrim s).length > 0)

/-- The per-step speaker-change test of the local heuristic fallback
(lines 214 to 223 of `diarization.ts`). -/
def speakerChangeSignal (prevSentence currSentence : String) : Bool :=
  strEndsWith prevSentence "?" ||
  strContains prevSentence "thank you" ||
  strContains prevSentence "could you" ||
  strContains prevSentence "what do you think" ||
  strContains currSentence "yeah" ||
  strContains currSentence "okay" ||
  strContains currSentence "so," ||
  strContains currSentence "well,"

/-- Toggle between the two heuristic speaker labels. -/
def otherSpeaker (sp : String) : String :=
  if sp = "Speaker 1" then "Speaker 2" else "Speaker 1"

/-- The sentence-walking loop of the heuristic fallback: `prev` is the
previous sentence, `cur` the text accumulated for the current speaker,
`acc` the segments already emitted. -/
def walkLoop (prev : String) (rest : List String) (sp cur : String)
    (acc : List Json) : List Json :=
  match rest with
  | [] => acc ++ [mkSeg sp cur]
  | s :: rest1 =>
    if speakerChangeSignal prev s then
      walkLoop s rest1 (otherSpeaker sp) s (acc ++ [mkSeg sp cur])
    else
      walkLoop s rest1 sp (cur ++ " " ++ s) acc

/-- The `catch (parseError)` fallback (lines 194 to 236): sentence split,
then either a single "Speaker 1" segment or the alternating walk. -/
def sentenceFallback (t : String) : List Json :=
  match splitSentences t with
  | [] => [mkSeg "Speaker 1" t]
  | s0 :: rest =>
    if (s0 :: rest).length ≤ 2 then [mkSeg "Speaker 1" t]
    else walkLoop s0 rest "Speaker 1" s0 []

/-- `Array.prototype.join(" ")`. -/
def joinSpace : List String → String
  | [] => ""
  | [s] => s
  | s :: s1 :: rest => s ++ " " ++ joinSpace (s1 :: rest)

/-- The single-element-array recovery (lines 84 to 95): split the lone
segment text in half at the midpoint sentence boundary; a missing or
non-string `text` makes `.split` throw. -/
def singleElemSplit (e : Json) : Except Unit (List Json) :=
  match jsGet e "text" with
  | .ok (some (.str s)) =>
    let segments := splitSentences s
    if 1 < segments.length then
      .ok [mkSeg "Speaker 1"
             (joinSpace (segments.take ((segments.length + 1) / 2))),
           mkSeg "Speaker 2"
             (joinSpace (segments.drop ((segments.length + 1) / 2)))]
    else .ok [e]
  | _ => .error ()

/-- Match starts of `/(?<=[.!?])\s+(?=[A-Z])/g` over `cs`, `i` being the
index of the head of `cs` and `prev` the preceding character: positions
where punctuation is followed by a maximal whitespace run and then an
ASCII capital. -/
def sentEndPositions (prev : Option Char) (i : Nat) (cs : List Char) :
    List Nat :=
  match cs with
  | [] => []
  | c :: rest =>
    let here :=
      (match prev with | some p => isSentEnd p | none => false) &&
      isWsChar c &&
      (match rest.dropWhile isWsChar with
       | a :: _ => 'A' ≤ a && a ≤ 'Z'
       | [] => false)
    (if here then [i] else []) ++ sentEndPositions (some c) (i + 1) rest

/-- The one-entry recovery of the object branch (lines 123 to 174): if the
lone reconstructed segment has a long text, cut it at the one-third and
two-thirds sentence boundaries into three alternating segments. -/
def singleSegRecovery (seg : Json) : List Json :=
  match jsField seg "text" with
  | some v =>
    if truthy v && decide ((jsLength v).getD 0 > 200) then
      let text := jsToString v
      let positions := sentEndPositions none 0 text.data
      match positions with
      | [] => [seg]
      | _ :: _ =>
        let spV := (jsField seg "speaker").getD .null
        let firstSpeaker := if truthy spV then spV else .str "Speaker 1"
        let secondSpeaker :=
          match firstSpeaker with
          | .str s => if s = "Interviewer" then "Interviewee" else "Speaker 2"
          | _ => "Speaker 2"
        let n := positions.length
        let fb := positions.getD (n / 3) 0
        let sb := positions.getD (2 * n / 3) 0
        [.obj [("speaker", firstSpeaker),
               ("text", .str (strTrim (jsSubstring text 0 (fb + 1))))],
         .obj [("speaker", .str secondSpeaker),
               ("text", .str (strTrim (jsSubstring text (fb + 1) (sb + 1))))],
         .obj [("speaker", firstSpeaker),
               ("text", .str (strTrim (jsSubstringFrom text (sb + 1))))]]
    else [seg]
  | none => [seg]

/-- `Object.entries` reinterpretation of one member (lines 106 to 119). -/
def entrySeg (result : Json) (kv : String × Json) : Option Json :=
  if kv.1 = "speaker" && hasField result "text" then
    some (.obj [("speaker", kv.2), ("text", (jsField result "text").getD .null)])
  else if strContains (strToLower kv.1) "speaker" &&
          (match kv.2 with | .str _ => true | _ => false) then
    some (.obj [("speaker", .str kv.1), ("text", kv.2)])
  else none

/-- The midpoint fallback on the transcript itself (lines 180 to 192). -/
def midpointFallback (t : String) : List Json :=
  let midPoint := t.length / 2
  let idx := jsIndexOfFrom t ". " midPoint
  let splitIndex : Nat :=
    if idx = -1 || idx > (midPoint : Int) + 200 then midPoint else idx.toNat + 2
  [mkSeg "Speaker 1" (strTrim (jsSubstring t 0 splitIndex)),
   mkSeg "Speaker 2" (strTrim (jsSubstringFrom t splitIndex))]

/-- Dispatch on the reconstructed entry list (lines 121 to 177 and the
final fallback at 180). -/
def objRecovery (t : String) (segments : List Json) : List Json :=
  match segments with
  | [] => midpointFallback t
  | [seg] => singleSegRecovery seg
  | s :: rest => s :: rest

/-- The `Array.isArray` half of the field tests: the array payload of a
property read, when the value is an array. -/
def asArr : Option Json → Option (List Json)
  | some (.arr xs) => some xs
  | _ => none

/-- Recovery for a parsed reply that is not an array (lines 97 to 192).
Reading `.segments` off `null` throws, reproduced by `jsGet`. -/
def nonArrayRecovery (t : String) (result : Json) : Except Unit (List Json) :=
  match jsGet result "segments" with
  | .error _ => .error ()
  | .ok segF =>
    match asArr segF with
    | some xs => .ok xs
    | none =>
      match jsGet result "speakers" with
      | .error _ => .error ()
      | .ok spkF =>
        match asArr spkF with
        | some xs => .ok xs
        | none =>
          match result with
          | .obj fields =>
            .ok (objRecovery t (fields.filterMap (entrySeg result)))
          | _ => .ok (midpointFallback t)

/-- The body of the inner `try` around `JSON.parse` (lines 77 to 193);
an `.error` is what the `catch (parseError)` handler receives. -/
def parseBranch (t c : String) : Except Unit (List Json) :=
  match jsonParse c with
  | none => .error ()
  | some (.arr [e]) => singleElemSplit e
  | some (.arr elems) => .ok elems
  | some other => nonArrayRecovery t other

/-- `identifySpeakers` after the model reply arrived: `none` stands for a
`null` message content (the empty string is equally falsy). -/
def identifySpeakersFromContent (transcriptText : String)
    (content : Option String) : List Json :=
  match content with
  | none => [mkSeg "Unknown" transcriptText]
  | some c =>
    if c = "" then [mkSeg "Unknown" transcriptText]
    else
      match parseBranch transcriptText c with
      | .ok segs => segs
      | .error _ => sentenceFallback transcriptText

/-- The embedding of `identifySpeakers`: the reply oracle is either a
thrown service error or the message content of the completion. -/
def identifySpeakers (transcriptText : String)
    (reply : Except Unit (Option String)) : List Json :=
  match reply with
  | .error _ => [mkSeg "Unknown" transcriptText]
  | .ok content => identifySpeakersFromContent transcriptText content

/-! ### Summarization (`src/server/summary.ts`, `generateSummary`) -/

/-- The value shape `generateSummary` resolves with: the three fields as
the code leaves them after the `|| []` defaulting (unvalidated beyond
that, so each holds an arbitrary parsed value). -/
structure SummaryOut where
  keyPoints : Json
  topics : Json
  actionItems : Json

/-- `v || []` on a possibly-undefined field read. -/
def fieldOrEmptyList (v : Option Json) : Json :=
  match v with
  | some j => if truthy j then j else .arr []
  | none => .arr []

/-- Field extraction and defaulting on the parsed reply: reading a
property off the parsed `null` throws, anything else defaults each
falsy or missing field to an empty array. -/
def summaryFromJson : Json → Except Unit SummaryOut
  | .null => .error ()
  | j =>
    .ok ⟨fieldOrEmptyList (jsField j "keyPoints"),
         fieldOrEmptyList (jsField j "topics"),
         fieldOrEmptyList (jsField j "actionItems")⟩

/-- The embedding of `generateSummary`, as a function of the upstream
message content (`none` for a `null` content).  `.error` is the wrapped
exception the function throws. -/
def generateSummary (content : Option String) : Except Unit SummaryOut :=
  match content with
  | none => .ok ⟨.arr [], .arr [], .arr []⟩
  | some c =>
    if c = "" then .ok ⟨.arr [], .arr [], .arr []⟩
    else
      match jsonParse c with
      | none => .error ()
      | some j => summaryFromJson j

/-! ### Filesystem model and the transcription pipeline
(`src/unnamed/part_000` and `src/server/routes.ts`) -/

/-- Scratch filesystem: an association list from paths to byte sizes. -/
abbrev FS := List (String × Nat)

/-- `fs.statSync(p).size`, as a partial read (`none`: no such file). -/
def getSize : FS → String → Option Nat
  | [], _ => none
  | e :: rest, p => if p = e.1 then some e.2 else getSize rest p

/-- `fs.existsSync`. -/
def existsFile (fs : FS) (p : String) : Bool := (getSize fs p).isSome

/-- Create or overwrite a file. -/
def setFile : FS → String → Nat → FS
  | [], p, n => [(p, n)]
  | e :: rest, p, n =>
    if p = e.1 then (p, n) :: rest else e :: setFile rest p n

/-- `fs.unlinkSync` / `fs.unlink`: remove every entry at the path. -/
def removeFile : FS → String → FS
  | [], _ => []
  | e :: rest, p =>
    if p = e.1 then removeFile rest p else e :: removeFile rest p

/-- `path.basename`: the part after the last slash. -/
def basename (p : String) : String :=
  String.mk (p.data.reverse.takeWhile (fun c => ¬ c = '/')).reverse

/-- `path.dirname`: the part before the last slash, `"."` when there is
none, `"/"` for a file at the root. -/
def dirname (p : String) : String :=
  match p.data.reverse.dropWhile (fun c => ¬ c = '/') with
  | [] => "."
  | _ :: rev =>
    match rev.reverse with
    | [] => "/"
    | pre => String.mk pre

/-- `path.join` in the two shapes the code produces. -/
def pathJoin (dir name : String) : String :=
  if dir = "." then name else dir ++ "/" ++ name

/-- The output path `compressAudioFile` builds for an input path. -/
def compressedOutputPath (inputPath : String) : String :=
  pathJoin (dirname inputPath) ("compressed-" ++ basename inputPath ++ ".ogg")

/-- The one observable behaviour of the ffmpeg shell-out: whether
`execAsync` rejects, and the size of the output file it leaves behind,
if any (a failing run may still have written a partial output). -/
structure FfmpegBehavior where
  errors : Bool
  output : Option Nat

/-- Effect of the ffmpeg run on the scratch filesystem. -/
def runFfmpeg (b : FfmpegBehavior) (outPath : String) (fs : FS) : FS :=
  match b.output with
  | some n => setFile fs outPath n
  | none => fs

/-- The embedding of `compressAudioFile` (lines 68 to 99 of
`src/unnamed/part_000`): on an exec error or a missing/empty output the
thrown error is swallowed and the input path is returned; on success the
original is unlinked and the output path returned. -/
def compressAudioFile (b : FfmpegBehavior) (inputPath : String) (fs : FS) :
    String × FS :=
  let outputPath := compressedOutputPath inputPath
  let fs1 := runFfmpeg b outputPath fs
  if b.errors then (inputPath, fs1)
  else if (getSize fs1 outputPath).getD 0 = 0 then (inputPath, fs1)
  else (outputPath, removeFile fs1 inputPath)

/-- The success condition of the compression step, as the code tests it. -/
def compressSucceeds (b : FfmpegBehavior) (inputPath : String) (fs : FS) :
    Bool :=
  ¬ b.errors &&
  ¬ (getSize (runFfmpeg b (compressedOutputPath inputPath) fs)
       (compressedOutputPath inputPath)).getD 0 = 0

/-- The one observable behaviour of the Whisper transcription call. -/
inductive SvcOutcome where
  | ok (text : String) (duration : Option Nat)
  | respErr (msg : Option String)
  | plainErr (msg : String)

/-- The embedding of `transcribeAudio` (lines 14 to 46 of
`src/unnamed/part_000`).  The boolean records whether the external
service was actually called.  A missing file makes the function throw
before any call; its own `catch` re-wraps that error, so the propagated
message is the wrapped descriptive one. -/
def transcribeAudio (svc : SvcOutcome) (fs : FS) (path : String) :
    Except String (String × Nat) × Bool :=
  if existsFile fs path then
    match svc with
    | .ok text duration => (.ok (text, duration.getD 0), true)
    | .respErr msg =>
      (.error (match msg with
               | some m => if m = "" then "OpenAI API error" else m
               | none => "OpenAI API error"), true)
    | .plainErr msg => (.error ("Failed to transcribe audio: " ++ msg), true)
  else
    (.error "Failed to transcribe audio: Audio file not found", false)

/-- `25 * 1024 * 1024`, the Whisper upload ceiling in bytes. -/
def maxWhisperFileSize : Nat := 25 * 1024 * 1024

/-- `(n / (1024 * 1024)).toFixed(2)`: megabytes with two decimals,
rounded (exact rational rounding approximating the float formatting). -/
def fmtMB (n : Nat) : String :=
  let h := (n * 100 + 524288) / 1048576
  toString (h / 100) ++ "." ++ (if h % 100 < 10 then "0" else "") ++
    toString (h % 100)

/-- The message of the error thrown when the compressed file is still
over the service ceiling (line 169 of `src/unnamed/part_000`). -/
def stillTooLargeMsg (newSize : Nat) : String :=
  "File still too large after compression (" ++ fmtMB newSize ++
    "MB). Try a shorter audio clip."

/-- The message `statSync` raises on a missing file (modelled verbatim). -/
def statErrorMsg : String := "ENOENT: no such file or directory"

/-- What the route handler sends and leaves behind.
`transcribeCalledOn` is the path handed to `transcribeAudio`, `none`
when the handler failed before reaching it. -/
structure RouteResult where
  status : Nat
  message : Option String
  body : Option (String × Nat × String × Bool)
  fs : FS
  compressCalled : Bool
  transcribeCalledOn : Option String

/-- The `finally` block of the compression-variant handler (lines 186 to
200): unlink the audio path if it survives, then the original when a
distinct compressed file was produced. -/
def routeCleanup (audioPath filePath : String) (wasCompressed : Bool)
    (fs : FS) : FS :=
  let fs1 := if existsFile fs audioPath then removeFile fs audioPath else fs
  if wasCompressed && existsFile fs1 filePath then removeFile fs1 filePath
  else fs1

/-- Tail of the compression-variant handler once a file is ready to send
to Whisper: transcribe, clean up, and shape the response. -/
def finishTranscription (svc : SvcOutcome) (audioPath filePath origName : String)
    (wasCompressed compressCalled : Bool) (fs : FS) : RouteResult :=
  let tr := transcribeAudio svc fs audioPath
  let fs1 := routeCleanup audioPath filePath wasCompressed fs
  match tr.1 with
  | .ok (text, duration) =>
    { status := 200, message := none,
      body := some (text, duration, origName, wasCompressed),
      fs := fs1, compressCalled := compressCalled,
      transcribeCalledOn := some audioPath }
  | .error msg =>
    { status := 500, message := some msg, body := none,
      fs := fs1, compressCalled := compressCalled,
      transcribeCalledOn := some audioPath }

/-- `audioPath !== filePath`, the `wasCompressed` test of the handler. -/
def pathsDiffer (a f : String) : Bool := decide (¬ a = f)

/-- The embedding of the `POST /api/transcribe` handler registered by
`registerRoutes` in `src/unnamed/part_000` (lines 140 to 215): stat the
upload, compress when above the ceiling, fail when still too large,
otherwise transcribe; the `finally` cleanup runs on every path, and
errors surface as a 500 with the thrown message. -/
def transcribeRoute (b : FfmpegBehavior) (svc : SvcOutcome)
    (filePath origName : String) (fs : FS) : RouteResult :=
  match getSize fs filePath with
  | none =>
    { status := 500, message := some statErrorMsg, body := none,
      fs := routeCleanup filePath filePath false fs,
      compressCalled := false, transcribeCalledOn := none }
  | some fileSize =>
    if fileSize > maxWhisperFileSize then
      let rc := compressAudioFile b filePath fs
      let audioPath := rc.1
      let fs1 := rc.2
      let wasCompressed : Bool := pathsDiffer audioPath filePath
      match getSize fs1 audioPath with
      | none =>
        { status := 500, message := some statErrorMsg, body := none,
          fs := routeCleanup audioPath filePath wasCompressed fs1,
          compressCalled := true, transcribeCalledOn := none }
      | some newSize =>
        if newSize > maxWhisperFileSize then
          { status := 500, message := some (stillTooLargeMsg newSize),
            body := none,
            fs := routeCleanup audioPath filePath wasCompressed fs1,
            compressCalled := true, transcribeCalledOn := none }
        else
          finishTranscription svc audioPath filePath origName wasCompressed
            true fs1
    else
      finishTranscription svc filePath filePath origName false false fs

/-- The embedding of the simple `POST /api/transcribe` handler of
`src/server/routes.ts` (lines 50 to 95): transcribe, then unlink the
upload on both the success and the error path. -/
def transcribeRouteSimple (svc : SvcOutcome) (filePath origName : String)
    (fs : FS) : RouteResult :=
  let tr := transcribeAudio svc fs filePath
  let fs1 := removeFile fs filePath
  match tr.1 with
  | .ok (text, duration) =>
    { status := 200, message := none,
      body := some (text, duration, origName, false),
      fs := fs1, compressCalled := false,
      transcribeCalledOn := some filePath }
  | .error msg =>
    { status := 500, message := some msg, body := none,
      fs := fs1, compressCalled := false,
      transcribeCalledOn := some filePath }

/-! ### Claim-side definitions

Two definitions below are written from the wording of the claims rather
than from the source, to be compared with the source embedding:
`claimTurnSignal` and `claimHeuristicSegments` render the walk described
by claim C4. -/

/-- The key phrases of the previous sentence listed by the heuristic. -/
def claimPrevPhrases : List String :=
  ["thank you", "could you", "what do you think"]

/-- The key phrases of the current sentence listed by the heuristic. -/
def claimCurrPhrases : List String := ["yeah", "okay", "so,", "well,"]

/-- Claim C4 wording: a turn-taking signal fires when the previous
sentence ends with a question mark or contains a listed key phrase, or
the current sentence contains a listed key phrase. -/
def claimTurnSignal (prev curr : String) : Bool :=
  strEndsWith prev "?" ||
  claimPrevPhrases.any (fun p => strContains prev p) ||
  claimCurrPhrases.any (fun p => strContains curr p)

/-- Claim C4 wording: walk the sentences with a current speaker and an
accumulated run, switching and emitting the run exactly when the signal
fires, and emitting the final run at the end. -/
def claimWalk (sp : String) (run : List String) (prev : String) :
    List String → List (String × List String)
  | [] => [(sp, run)]
  | s :: rest =>
    if claimTurnSignal prev s then
      (sp, run) ::
        claimWalk (if sp = "Speaker 1" then "Speaker 2" else "Speaker 1")
          [s] s rest
    else claimWalk sp (run ++ [s]) s rest

/-- Claim C4 wording, assembled: start at "Speaker 1" on the first
sentence and render each run as one segment. -/
def claimHeuristicSegments (sentences : List String) : List Json :=
  match sentences with
  | [] => []
  | s0 :: rest =>
    (claimWalk "Speaker 1" [s0] s0 rest).map
      (fun pr => mkSeg pr.1 (joinSpace pr.2))

/-- A non-array parsed reply whose `segments` (or, that failing,
`speakers`) property is an empty array: the shapes the recovery passes
through verbatim as zero segments. -/
def emptyArrayShape (r : Json) : Bool :=
  match jsGet r "segments" with
  | .error _ => false
  | .ok segF =>
    match asArr segF with
    | some xs => xs.isEmpty
    | none =>
      match jsGet r "speakers" with
      | .error _ => false
      | .ok spkF =>
        match asArr spkF with
        | some xs => xs.isEmpty
        | none => false

/-- The replies on which the diarization result is the empty list: an
empty JSON array, or a non-array with an empty `segments`/`speakers`
array. -/
def emptyArrayReply (c : String) : Bool :=
  match jsonParse c with
  | none => false
  | some (.arr elems) => elems.isEmpty
  | some other => emptyArrayShape other

/-- The speaker label of a constructed segment, for observations. -/
def segSpeakerName (j : Json) : Option String :=
  match jsField j "speaker" with
  | some (.str s) => some s
  | _ => none

/-! ### Filesystem lemmas -/

/-- Reading after a write: the written path sees the new size, others are
untouched. -/
theorem getSize_setFile (fs : FS) (q : String) (n : Nat) (p : String) :
    getSize (setFile fs q n) p = if p = q then some n else getSize fs p := by
  induction fs with
  | nil => simp [setFile, getSize]
  | cons e rest ih =>
    by_cases hq : q = e.1
    · rw [setFile, if_pos hq, getSize]
      by_cases h : p = q
      · rw [if_pos h, if_pos h]
      · rw [if_neg h, if_neg h, getSize,
            if_neg (fun hh => h (hh.trans hq.symm))]
    · rw [setFile, if_neg hq, getSize]
      by_cases h : p = e.1
      · rw [if_pos h, if_neg (fun hh : p = q => hq (hh.symm.trans h))]
        rw [getSize, if_pos h]
      · rw [if_neg h, ih]
        by_cases h2 : p = q
        · rw [if_pos h2, if_pos h2]
        · rw [if_neg h2, if_neg h2, getSize, if_neg h]

/-- Reading after an unlink: the removed path is gone, others untouched. -/
theorem getSize_removeFile (fs : FS) (q p : String) :
    getSize (removeFile fs q) p = if p = q then none else getSize fs p := by
  induction fs with
  | nil => simp [removeFile, getSize]
  | cons e rest ih =>
    by_cases hq : q = e.1
    · rw [removeFile, if_pos hq, ih]
      by_cases h : p = q
      · rw [if_pos h, if_pos h]
      · rw [if_neg h, if_neg h, getSize,
            if_neg (fun hh => h (hh.trans hq.symm))]
    · rw [removeFile, if_neg hq, getSize]
      by_cases h : p = e.1
      · rw [if_pos h, if_neg (fun hh : p = q => hq (hh.symm.trans h))]
        rw [getSize, if_pos h]
      · rw [if_neg h, ih]
        by_cases h2 : p = q
        · rw [if_pos h2, if_pos h2]
        · rw [if_neg h2, if_neg h2, getSize, if_neg h]

/-- Existence after a write. -/
theorem existsFile_setFile (fs : FS) (q : String) (n : Nat) (p : String) :
    existsFile (setFile fs q n) p =
      if p = q then true else existsFile fs p := by
  rw [existsFile, getSize_setFile]
  by_cases h : p = q <;> simp [existsFile, h]

/-- Existence after an unlink. -/
theorem existsFile_removeFile (fs : FS) (q p : String) :
    existsFile (removeFile fs q) p =
      if p = q then false else existsFile fs p := by
  rw [existsFile, getSize_removeFile]
  by_cases h : p = q <;> simp [existsFile, h]

/-- The ffmpeg run never deletes a file. -/
theorem existsFile_runFfmpeg (b : FfmpegBehavior) (o : String) (fs : FS)
    (p : String) (h : existsFile fs p = true) :
    existsFile (runFfmpeg b o fs) p = true := by
  cases hb : b.output with
  | none => rw [runFfmpeg, hb]; exact h
  | some n =>
    rw [runFfmpeg, hb, existsFile_setFile]
    by_cases hp : p = o <;> simp [hp, h]

/-- A failing or empty-output run returns the input path with the
filesystem as ffmpeg left it. -/
theorem compressAudioFile_of_failure (b : FfmpegBehavior) (p : String)
    (fs : FS) (h : compressSucceeds b p fs = false) :
    compressAudioFile b p fs = (p, runFfmpeg b (compressedOutputPath p) fs) := by
  cases hb : b.errors
  · rw [compressSucceeds, hb] at h
    simp at h
    simp [compressAudioFile, hb, h]
  · simp [compressAudioFile, hb]

/-- A successful run returns the output path and unlinks the input. -/
theorem compressAudioFile_of_success (b : FfmpegBehavior) (p : String)
    (fs : FS) (h : compressSucceeds b p fs = true) :
    compressAudioFile b p fs =
      (compressedOutputPath p,
       removeFile (runFfmpeg b (compressedOutputPath p) fs) p) := by
  rw [compressSucceeds, Bool.and_eq_true] at h
  obtain ⟨h1, h2⟩ := h
  simp only [decide_eq_true_eq] at h1 h2
  have hb : b.errors = false := by
    cases hbe : b.errors
    · rfl
    · exact absurd hbe h1
  simp [compressAudioFile, hb, h2]

/-- Claim C5: `compressAudioFile` returns normally for every behaviour of
the encoder; on an exec error or a missing/empty output it hands back
the input path with the original file still present, and on success it
hands back the compressed path with the original deleted. -/
theorem compressAudioFile_error_policy (b : FfmpegBehavior) (p : String)
    (fs : FS) :
    (compressSucceeds b p fs = false →
      (compressAudioFile b p fs).1 = p ∧
      (existsFile fs p = true →
        existsFile (compressAudioFile b p fs).2 p = true)) ∧
    (compressSucceeds b p fs = true →
      (compressAudioFile b p fs).1 = compressedOutputPath p ∧
      existsFile (compressAudioFile b p fs).2 p = false) := by
  constructor
  · intro hs
    rw [compressAudioFile_of_failure b p fs hs]
    exact ⟨rfl, fun h => existsFile_runFfmpeg b _ fs p h⟩
  · intro hs
    rw [compressAudioFile_of_success b p fs hs]
    exact ⟨rfl, by rw [existsFile_removeFile, if_pos rfl]⟩

/-- Witness for C5: a failing run keeps the original, a succeeding run
removes it. -/
theorem compressAudioFile_error_policy_witness :
    ((compressAudioFile ⟨true, none⟩ "tmp/a.mp3" [("tmp/a.mp3", 9)]).1 =
        "tmp/a.mp3" ∧
      existsFile (compressAudioFile ⟨true, none⟩ "tmp/a.mp3"
        [("tmp/a.mp3", 9)]).2 "tmp/a.mp3" = true) ∧
    ((compressAudioFile ⟨false, some 4⟩ "tmp/a.mp3" [("tmp/a.mp3", 9)]).1 =
        compressedOutputPath "tmp/a.mp3" ∧
      existsFile (compressAudioFile ⟨false, some 4⟩ "tmp/a.mp3"
        [("tmp/a.mp3", 9)]).2 "tmp/a.mp3" = false) :=
  ⟨⟨((compressAudioFile_error_policy ⟨true, none⟩ "tmp/a.mp3"
        [("tmp/a.mp3", 9)]).1 rfl).1,
    ((compressAudioFile_error_policy ⟨true, none⟩ "tmp/a.mp3"
        [("tmp/a.mp3", 9)]).1 rfl).2 rfl⟩,
   (compressAudioFile_error_policy ⟨false, some 4⟩ "tmp/a.mp3"
        [("tmp/a.mp3", 9)]).2 rfl⟩

/-- Claim C8: on a path with no file, `transcribeAudio` fails without any
external call, and the propagated message is the descriptive
file-not-found one. -/
theorem transcribeAudio_missing_file (svc : SvcOutcome) (fs : FS)
    (p : String) (h : existsFile fs p = false) :
    transcribeAudio svc fs p =
      (.error "Failed to transcribe audio: Audio file not found", false) ∧
    strContains "Failed to transcribe audio: Audio file not found"
      "not found" = true := by
  refine ⟨?_, by decide⟩
  simp [transcribeAudio, h]

/-- Witness for C8 on an empty filesystem. -/
theorem transcribeAudio_missing_file_witness :
    transcribeAudio (.ok "t" none) [] "up.mp3" =
      (.error "Failed to transcribe audio: Audio file not found", false) :=
  (transcribeAudio_missing_file (.ok "t" none) [] "up.mp3" rfl).1

/-- String concatenation is associative (via the underlying data). -/
theorem strAppendAssoc (a b c : String) : a ++ b ++ c = a ++ (b ++ c) := by
  apply String.ext
  simp [String.data_append]

/-- Bookkeeping fields of `finishTranscription` do not depend on the
transcription outcome. -/
theorem finishTranscription_fields (svc : SvcOutcome) (a f o : String)
    (w cc : Bool) (fs : FS) :
    (finishTranscription svc a f o w cc fs).compressCalled = cc ∧
    (finishTranscription svc a f o w cc fs).transcribeCalledOn = some a := by
  rcases htr : (transcribeAudio svc fs a).1 with m | ⟨text, dur⟩ <;>
    simp [finishTranscription, htr]

/-- Claim C6: an upload over the service ceiling whose post-compression
size is still over the ceiling makes the request fail with the
"still too large" message before any transcription call. -/
theorem stillTooLarge_route (b : FfmpegBehavior) (svc : SvcOutcome)
    (filePath origName : String) (fs : FS) (sz : Nat)
    (hsz : getSize fs filePath = some sz)
    (hbig : sz > maxWhisperFileSize)
    (hstill : (getSize (compressAudioFile b filePath fs).2
        (compressAudioFile b filePath fs).1).getD 0 > maxWhisperFileSize) :
    (transcribeRoute b svc filePath origName fs).status = 500 ∧
    (∃ suffix, (transcribeRoute b svc filePath origName fs).message =
      some ("File still too large after compression (" ++ suffix)) ∧
    (transcribeRoute b svc filePath origName fs).transcribeCalledOn = none := by
  cases hget : getSize (compressAudioFile b filePath fs).2
      (compressAudioFile b filePath fs).1 with
  | none =>
    rw [hget] at hstill
    simp [maxWhisperFileSize] at hstill
  | some newSize =>
    rw [hget] at hstill
    simp only [Option.getD_some] at hstill
    refine ⟨?_, ⟨fmtMB newSize ++ "MB). Try a shorter audio clip.", ?_⟩, ?_⟩
    · simp [transcribeRoute, hsz, hbig, hget, hstill]
    · simp [transcribeRoute, hsz, hbig, hget, hstill, stillTooLargeMsg,
        strAppendAssoc]
    · simp [transcribeRoute, hsz, hbig, hget, hstill]

/-- Witness for C6: a 25MB + 1 byte upload, ffmpeg failing outright. -/
theorem stillTooLarge_route_witness :
    (transcribeRoute ⟨true, none⟩ (.ok "t" none) "up/a.mp3" "a.mp3"
        [("up/a.mp3", 26214401)]).status = 500 ∧
    (∃ suffix, (transcribeRoute ⟨true, none⟩ (.ok "t" none) "up/a.mp3" "a.mp3"
        [("up/a.mp3", 26214401)]).message =
      some ("File still too large after compression (" ++ suffix)) ∧
    (transcribeRoute ⟨true, none⟩ (.ok "t" none) "up/a.mp3" "a.mp3"
        [("up/a.mp3", 26214401)]).transcribeCalledOn = none :=
  stillTooLarge_route ⟨true, none⟩ (.ok "t" none) "up/a.mp3" "a.mp3"
    [("up/a.mp3", 26214401)] 26214401 rfl (by decide) (by decide)

/-- Claim C10: an upload at or under the service ceiling is never
compressed, is handed to transcription unchanged, and reports
`wasCompressed = false` on success. -/
theorem smallFile_route (b : FfmpegBehavior) (svc : SvcOutcome)
    (filePath origName : String) (fs : FS) (sz : Nat)
    (hsz : getSize fs filePath = some sz)
    (hsmall : sz ≤ maxWhisperFileSize) :
    (transcribeRoute b svc filePath origName fs).compressCalled = false ∧
    (transcribeRoute b svc filePath origName fs).transcribeCalledOn =
      some filePath ∧
    ∀ text dur, svc = .ok text dur →
      (transcribeRoute b svc filePath origName fs).status = 200 ∧
      (transcribeRoute b svc filePath origName fs).body =
        some (text, dur.getD 0, origName, false) := by
  have hroute : transcribeRoute b svc filePath origName fs =
      finishTranscription svc filePath filePath origName false false fs := by
    simp [transcribeRoute, hsz, Nat.not_lt.mpr hsmall]
  rw [hroute]
  refine ⟨(finishTranscription_fields svc filePath filePath origName
      false false fs).1,
    (finishTranscription_fields svc filePath filePath origName
      false false fs).2, ?_⟩
  intro text dur hsvc
  subst hsvc
  have hex : existsFile fs filePath = true := by
    rw [existsFile, hsz]
    rfl
  have htr : (transcribeAudio (.ok text dur) fs filePath).1 =
      .ok (text, dur.getD 0) := by
    simp [transcribeAudio, hex]
  simp [finishTranscription, htr]

/-- Witness for C10: a small upload goes straight to transcription. -/
theorem smallFile_route_witness :
    (transcribeRoute ⟨false, some 3⟩ (.ok "hi" (some 2)) "up/a.mp3" "a.mp3"
        [("up/a.mp3", 100)]).compressCalled = false ∧
    (transcribeRoute ⟨false, some 3⟩ (.ok "hi" (some 2)) "up/a.mp3" "a.mp3"
        [("up/a.mp3", 100)]).transcribeCalledOn = some "up/a.mp3" ∧
    (transcribeRoute ⟨false, some 3⟩ (.ok "hi" (some 2)) "up/a.mp3" "a.mp3"
        [("up/a.mp3", 100)]).status = 200 ∧
    (transcribeRoute ⟨false, some 3⟩ (.ok "hi" (some 2)) "up/a.mp3" "a.mp3"
        [("up/a.mp3", 100)]).body = some ("hi", 2, "a.mp3", false) := by
  have h := smallFile_route ⟨false, some 3⟩ (.ok "hi" (some 2)) "up/a.mp3"
    "a.mp3" [("up/a.mp3", 100)] 100 rfl (by decide)
  exact ⟨h.1, h.2.1, (h.2.2 "hi" (some 2) rfl).1, (h.2.2 "hi" (some 2) rfl).2⟩

/-- Unlinking a path makes it not exist. -/
theorem existsFile_removeFile_self (fs : FS) (p : String) :
    existsFile (removeFile fs p) p = false := by
  rw [existsFile_removeFile, if_pos rfl]

/-- Unlinking never makes a missing path exist. -/
theorem existsFile_removeFile_of_false (fs : FS) (q p : String)
    (h : existsFile fs p = false) :
    existsFile (removeFile fs q) p = false := by
  rw [existsFile_removeFile]
  by_cases hpq : p = q
  · rw [if_pos hpq]
  · rw [if_neg hpq]
    exact h

/-- Either the two paths differ (boolean test true) or they are equal. -/
theorem pathsDiffer_or (a f : String) : pathsDiffer a f = true ∨ a = f := by
  by_cases h : a = f
  · exact Or.inr h
  · exact Or.inl (by simp [pathsDiffer, h])

/-- The cleanup step always removes the audio path it is given. -/
theorem routeCleanup_removes_audio (a f : String) (w : Bool) (fs : FS) :
    existsFile (routeCleanup a f w fs) a = false := by
  rw [routeCleanup]
  by_cases hex : existsFile fs a = true
  · rw [if_pos hex]
    by_cases hc : (w && existsFile (removeFile fs a) f) = true
    · rw [if_pos hc]
      exact existsFile_removeFile_of_false _ f a (existsFile_removeFile_self fs a)
    · rw [if_neg hc]
      exact existsFile_removeFile_self fs a
  · rw [if_neg hex]
    have hex1 : existsFile fs a = false := by
      cases hx : existsFile fs a
      · rfl
      · exact absurd hx hex
    by_cases hc : (w && existsFile fs f) = true
    · rw [if_pos hc]
      exact existsFile_removeFile_of_false fs f a hex1
    · rw [if_neg hc]
      exact hex1

/-- When the flag is set, or the audio path is the original itself, the
cleanup step removes the original upload. -/
theorem routeCleanup_removes_orig (a f : String) (w : Bool) (fs : FS)
    (hw : w = true ∨ a = f) :
    existsFile (routeCleanup a f w fs) f = false := by
  cases hw with
  | inr haf => subst haf; exact routeCleanup_removes_audio a a w fs
  | inl hw =>
    rw [routeCleanup]
    by_cases h1 : existsFile fs a = true
    · rw [if_pos h1]
      by_cases hf : existsFile (removeFile fs a) f = true
      · rw [if_pos (by rw [hw, hf]; rfl)]
        exact existsFile_removeFile_self _ f
      · have hf1 : existsFile (removeFile fs a) f = false := by
          cases hx : existsFile (removeFile fs a) f
          · rfl
          · exact absurd hx hf
        rw [if_neg (by simp [hf1])]
        exact hf1
    · rw [if_neg h1]
      by_cases hf : existsFile fs f = true
      · rw [if_pos (by rw [hw, hf]; rfl)]
        exact existsFile_removeFile_self fs f
      · have hf1 : existsFile fs f = false := by
          cases hx : existsFile fs f
          · rfl
          · exact absurd hx hf
        rw [if_neg (by simp [hf1])]
        exact hf1

/-- The filesystem left by `finishTranscription` is the cleanup of its
input, whatever the transcription outcome. -/
theorem finishTranscription_fs (svc : SvcOutcome) (a f o : String)
    (w cc : Bool) (fs : FS) :
    (finishTranscription svc a f o w cc fs).fs = routeCleanup a f w fs := by
  rcases htr : (transcribeAudio svc fs a).1 with m | ⟨text, dur⟩ <;>
    simp [finishTranscription, htr]

/-- Counterexample to claim C9: a 25MB + 1 byte upload on which ffmpeg
fails after writing a 5-byte partial output.  The request completes with
a 500 response, yet the partial compressed output file created for this
request is still on disk afterwards. -/
theorem transcribeRoute_leftover_counterexample :
    (transcribeRoute ⟨true, some 5⟩ (.ok "t" none) "up/a.mp3" "a.mp3"
        [("up/a.mp3", 26214401)]).status = 500 ∧
    getSize (transcribeRoute ⟨true, some 5⟩ (.ok "t" none) "up/a.mp3" "a.mp3"
        [("up/a.mp3", 26214401)]).fs "up/compressed-a.mp3.ogg" = some 5 := by
  exact ⟨rfl, rfl⟩

/-- Original upload half of amended claim C9: the compression-variant
handler always leaves the filesystem without the uploaded original. -/
theorem transcribeRoute_orig_removed (b : FfmpegBehavior) (svc : SvcOutcome)
    (filePath origName : String) (fs : FS) :
    existsFile (transcribeRoute b svc filePath origName fs).fs filePath =
      false := by
  cases hsz : getSize fs filePath with
  | none =>
    have hfs : (transcribeRoute b svc filePath origName fs).fs =
        routeCleanup filePath filePath false fs := by
      simp [transcribeRoute, hsz]
    rw [hfs]
    exact routeCleanup_removes_orig filePath filePath false fs (Or.inr rfl)
  | some sz =>
    by_cases hbig : maxWhisperFileSize < sz
    · cases hget : getSize (compressAudioFile b filePath fs).2
          (compressAudioFile b filePath fs).1 with
      | none =>
        have hfs : (transcribeRoute b svc filePath origName fs).fs =
            routeCleanup (compressAudioFile b filePath fs).1 filePath
              (pathsDiffer (compressAudioFile b filePath fs).1 filePath)
              (compressAudioFile b filePath fs).2 := by
          simp [transcribeRoute, hsz, hbig, hget]
        rw [hfs]
        exact routeCleanup_removes_orig _ _ _ _ (pathsDiffer_or _ _)
      | some newSize =>
        by_cases hstill : maxWhisperFileSize < newSize
        · have hfs : (transcribeRoute b svc filePath origName fs).fs =
              routeCleanup (compressAudioFile b filePath fs).1 filePath
                (pathsDiffer (compressAudioFile b filePath fs).1 filePath)
                (compressAudioFile b filePath fs).2 := by
            simp [transcribeRoute, hsz, hbig, hget, hstill]
          rw [hfs]
          exact routeCleanup_removes_orig _ _ _ _ (pathsDiffer_or _ _)
        · have hfs : (transcribeRoute b svc filePath origName fs).fs =
              routeCleanup (compressAudioFile b filePath fs).1 filePath
                (pathsDiffer (compressAudioFile b filePath fs).1 filePath)
                (compressAudioFile b filePath fs).2 := by
            simp [transcribeRoute, hsz, hbig, hget, hstill,
              finishTranscription_fs]
          rw [hfs]
          exact routeCleanup_removes_orig _ _ _ _ (pathsDiffer_or _ _)
    · have hfs : (transcribeRoute b svc filePath origName fs).fs =
          routeCleanup filePath filePath false fs := by
        simp [transcribeRoute, hsz, hbig, finishTranscription_fs]
      rw [hfs]
      exact routeCleanup_removes_orig filePath filePath false fs (Or.inr rfl)

/-- Compressed output half of amended claim C9: when the compression step
actually succeeded, the compressed file is removed too. -/
theorem transcribeRoute_output_removed (b : FfmpegBehavior) (svc : SvcOutcome)
    (filePath origName : String) (fs : FS) (sz : Nat)
    (hsz : getSize fs filePath = some sz)
    (hbig : maxWhisperFileSize < sz)
    (hsucc : compressSucceeds b filePath fs = true) :
    existsFile (transcribeRoute b svc filePath origName fs).fs
      (compressedOutputPath filePath) = false := by
  have h1 : (compressAudioFile b filePath fs).1 = compressedOutputPath filePath := by
    rw [compressAudioFile_of_success b filePath fs hsucc]
  cases hget : getSize (compressAudioFile b filePath fs).2
      (compressAudioFile b filePath fs).1 with
  | none =>
    have hfs : (transcribeRoute b svc filePath origName fs).fs =
        routeCleanup (compressAudioFile b filePath fs).1 filePath
          (pathsDiffer (compressAudioFile b filePath fs).1 filePath)
          (compressAudioFile b filePath fs).2 := by
      simp [transcribeRoute, hsz, hbig, hget]
    rw [hfs, h1]
    exact routeCleanup_removes_audio _ _ _ _
  | some newSize =>
    by_cases hstill : maxWhisperFileSize < newSize
    · have hfs : (transcribeRoute b svc filePath origName fs).fs =
          routeCleanup (compressAudioFile b filePath fs).1 filePath
            (pathsDiffer (compressAudioFile b filePath fs).1 filePath)
            (compressAudioFile b filePath fs).2 := by
        simp [transcribeRoute, hsz, hbig, hget, hstill]
      rw [hfs, h1]
      exact routeCleanup_removes_audio _ _ _ _
    · have hfs : (transcribeRoute b svc filePath origName fs).fs =
          routeCleanup (compressAudioFile b filePath fs).1 filePath
            (pathsDiffer (compressAudioFile b filePath fs).1 filePath)
            (compressAudioFile b filePath fs).2 := by
        simp [transcribeRoute, hsz, hbig, hget, hstill, finishTranscription_fs]
      rw [hfs, h1]
      exact routeCleanup_removes_audio _ _ _ _

/-- Amended claim C9: the uploaded original never survives the request,
a successfully produced compressed file never survives either, and the
simple handler always removes its single scratch file; only a partial
output of a failed compression run can be left behind. -/
theorem transcribeRoute_cleanup (b : FfmpegBehavior) (svc : SvcOutcome)
    (filePath origName : String) (fs : FS) :
    existsFile (transcribeRoute b svc filePath origName fs).fs filePath =
      false ∧
    (∀ sz, getSize fs filePath = some sz → maxWhisperFileSize < sz →
      compressSucceeds b filePath fs = true →
      existsFile (transcribeRoute b svc filePath origName fs).fs
        (compressedOutputPath filePath) = false) ∧
    (∀ (svc2 : SvcOutcome) (fp o2 : String) (fs2 : FS),
      existsFile (transcribeRouteSimple svc2 fp o2 fs2).fs fp = false) := by
  refine ⟨transcribeRoute_orig_removed b svc filePath origName fs,
    fun sz hsz hbig hsucc =>
      transcribeRoute_output_removed b svc filePath origName fs sz hsz hbig
        hsucc, ?_⟩
  intro svc2 fp o2 fs2
  rcases htr : (transcribeAudio svc2 fs2 fp).1 with m | ⟨text, dur⟩ <;>
    simp [transcribeRouteSimple, htr, existsFile_removeFile_self]

/-- Witness for the amended C9 at a concrete oversized upload whose
compression succeeds. -/
theorem transcribeRoute_cleanup_witness :
    existsFile (transcribeRoute ⟨false, some 9⟩ (.ok "t" none) "up/a.mp3"
        "a.mp3" [("up/a.mp3", 26214401)]).fs "up/a.mp3" = false ∧
    existsFile (transcribeRoute ⟨false, some 9⟩ (.ok "t" none) "up/a.mp3"
        "a.mp3" [("up/a.mp3", 26214401)]).fs
      (compressedOutputPath "up/a.mp3") = false ∧
    existsFile (transcribeRouteSimple (.plainErr "boom") "up/b.mp3" "b.mp3"
        [("up/b.mp3", 44)]).fs "up/b.mp3" = false := by
  have h := transcribeRoute_cleanup ⟨false, some 9⟩ (.ok "t" none) "up/a.mp3"
    "a.mp3" [("up/a.mp3", 26214401)]
  exact ⟨h.1, h.2.1 26214401 rfl (by decide) (by decide),
    h.2.2 (.plainErr "boom") "up/b.mp3" "b.mp3" [("up/b.mp3", 44)]⟩

/-- Counterexample to claim C7: the reply content `null` is parseable
JSON with no `actionItems` member, yet `generateSummary` throws (the
property read on the parsed `null`) instead of returning defaulted
empty lists. -/
theorem generateSummary_null_counterexample :
    jsonParse "null" = some Json.null ∧
    generateSummary (some "null") = Except.error () :=
  ⟨rfl, rfl⟩

/-- On any parsed value other than `null`, the summarizer succeeds with
the defaulted fields. -/
theorem summaryFromJson_ok (j : Json) (hnull : ¬ j = Json.null) :
    summaryFromJson j =
      .ok ⟨fieldOrEmptyList (jsField j "keyPoints"),
           fieldOrEmptyList (jsField j "topics"),
           fieldOrEmptyList (jsField j "actionItems")⟩ := by
  cases j <;> first
  | exact absurd rfl hnull
  | rfl

/-- Amended claim C7: an absent reply content yields the all-empty
summary, and every parseable reply other than the JSON literal `null`
yields a summary whose missing fields (in particular `actionItems`)
default to empty lists. -/
theorem generateSummary_defaults :
    (generateSummary none =
      .ok ⟨.arr [], .arr [], .arr []⟩) ∧
    (∀ c j, ¬ c = "" → jsonParse c = some j → ¬ j = Json.null →
      ∃ s, generateSummary (some c) = .ok s ∧
        (jsField j "actionItems" = none → s.actionItems = .arr []) ∧
        (jsField j "keyPoints" = none → s.keyPoints = .arr []) ∧
        (jsField j "topics" = none → s.topics = .arr [])) := by
  refine ⟨rfl, ?_⟩
  intro c j hc hp hnull
  refine ⟨⟨fieldOrEmptyList (jsField j "keyPoints"),
           fieldOrEmptyList (jsField j "topics"),
           fieldOrEmptyList (jsField j "actionItems")⟩, ?_, ?_, ?_, ?_⟩
  · simp [generateSummary, hc, hp, summaryFromJson_ok j hnull]
  · intro h
    simp [h, fieldOrEmptyList]
  · intro h
    simp [h, fieldOrEmptyList]
  · intro h
    simp [h, fieldOrEmptyList]

/-- Witness for the amended C7 on the empty-object reply. -/
theorem generateSummary_defaults_witness :
    ∃ s, generateSummary (some "\x7b\x7d") = .ok s ∧
      (jsField (Json.obj []) "actionItems" = none →
        s.actionItems = .arr []) ∧
      (jsField (Json.obj []) "keyPoints" = none →
        s.keyPoints = .arr []) ∧
      (jsField (Json.obj []) "topics" = none → s.topics = .arr []) :=
  generateSummary_defaults.2 "\x7b\x7d" (Json.obj []) (by decide) rfl
    (fun h => nomatch h)

/-! ### Diarization lemmas -/

/-- The heuristic walk always emits at least its final segment. -/
theorem walkLoop_ne_nil (rest : List String) :
    ∀ prev sp cur acc, ¬ walkLoop prev rest sp cur acc = [] := by
  induction rest with
  | nil =>
    intro prev sp cur acc
    simp [walkLoop]
  | cons s rest1 ih =>
    intro prev sp cur acc
    simp only [walkLoop]
    by_cases h : speakerChangeSignal prev s = true
    · rw [if_pos h]
      exact ih s (otherSpeaker sp) s (acc ++ [mkSeg sp cur])
    · rw [if_neg h]
      exact ih s sp (cur ++ " " ++ s) acc

/-- The sentence fallback never returns the empty list. -/
theorem sentenceFallback_ne_nil (t : String) :
    ¬ sentenceFallback t = [] := by
  rw [sentenceFallback]
  split
  · simp
  · split
    · simp
    · exact walkLoop_ne_nil _ _ _ _ _

/-- The midpoint fallback returns its two literal segments. -/
theorem midpointFallback_ne_nil (t : String) :
    ¬ midpointFallback t = [] := by
  simp [midpointFallback]

/-- The one-entry recovery keeps or splits its segment, never drops it. -/
theorem singleSegRecovery_ne_nil (seg : Json) :
    ¬ singleSegRecovery seg = [] := by
  cases ht : jsField seg "text" with
  | none => simp [singleSegRecovery, ht]
  | some v =>
    by_cases hc : (truthy v && decide ((jsLength v).getD 0 > 200)) = true
    · cases hp : sentEndPositions none 0 (jsToString v).data with
      | nil => simp [singleSegRecovery, ht, hc, hp]
      | cons p ps => simp [singleSegRecovery, ht, hc, hp]
    · simp [singleSegRecovery, ht, hc]

/-- The object-entry recovery never returns the empty list. -/
theorem objRecovery_ne_nil (t : String) (segments : List Json) :
    ¬ objRecovery t segments = [] := by
  cases segments with
  | nil => simpa [objRecovery] using midpointFallback_ne_nil t
  | cons s rest =>
    cases rest with
    | nil => simpa [objRecovery] using singleSegRecovery_ne_nil s
    | cons s2 r2 => simp [objRecovery]

/-- The one-element-array recovery never succeeds with the empty list. -/
theorem singleElemSplit_ok_ne_nil (e : Json) (segs : List Json)
    (h : singleElemSplit e = .ok segs) : ¬ segs = [] := by
  cases ht : jsGet e "text" with
  | error u => simp [singleElemSplit, ht] at h
  | ok vo =>
    cases vo with
    | none => simp [singleElemSplit, ht] at h
    | some v =>
      cases v with
      | str s =>
        by_cases hlen : 1 < (splitSentences s).length
        · simp [singleElemSplit, ht, hlen] at h
          subst h
          simp
        · simp [singleElemSplit, ht, hlen] at h
          subst h
          simp
      | null => simp [singleElemSplit, ht] at h
      | bool b => simp [singleElemSplit, ht] at h
      | num n => simp [singleElemSplit, ht] at h
      | arr xs => simp [singleElemSplit, ht] at h
      | obj fs => simp [singleElemSplit, ht] at h

/-- A non-array recovery can only succeed with the empty list on a reply
with an empty `segments`/`speakers` array. -/
theorem nonArrayRecovery_ok_empty (t : String) (r : Json)
    (h : nonArrayRecovery t r = .ok []) : emptyArrayShape r = true := by
  cases hseg : jsGet r "segments" with
  | error u => simp [nonArrayRecovery, hseg] at h
  | ok segF =>
    cases harr : asArr segF with
    | some xs =>
      simp [nonArrayRecovery, hseg, harr] at h
      simp [emptyArrayShape, hseg, harr, h]
    | none =>
      cases hspk : jsGet r "speakers" with
      | error u => simp [nonArrayRecovery, hseg, harr, hspk] at h
      | ok spkF =>
        cases harr2 : asArr spkF with
        | some xs =>
          simp [nonArrayRecovery, hseg, harr, hspk, harr2] at h
          simp [emptyArrayShape, hseg, harr, hspk, harr2, h]
        | none =>
          cases r with
          | null =>
            simp [nonArrayRecovery, hseg, harr, hspk, harr2] at h
            exact absurd h (midpointFallback_ne_nil t)
          | obj fields =>
            simp [nonArrayRecovery, hseg, harr, hspk, harr2] at h
            exact absurd h (objRecovery_ne_nil t _)
          | bool b =>
            simp [nonArrayRecovery, hseg, harr, hspk, harr2] at h
            exact absurd h (midpointFallback_ne_nil t)
          | num n =>
            simp [nonArrayRecovery, hseg, harr, hspk, harr2] at h
            exact absurd h (midpointFallback_ne_nil t)
          | str s =>
            simp [nonArrayRecovery, hseg, harr, hspk, harr2] at h
            exact absurd h (midpointFallback_ne_nil t)
          | arr xs =>
            simp [nonArrayRecovery, hseg, harr, hspk, harr2] at h
            exact absurd h (midpointFallback_ne_nil t)

/-- The inner parse branch can only succeed with the empty list when the
reply is one of the empty-array shapes. -/
theorem parseBranch_ok_empty (t c : String)
    (h : parseBranch t c = .ok []) : emptyArrayReply c = true := by
  cases hp : jsonParse c with
  | none => simp [parseBranch, hp] at h
  | some j =>
    cases j with
    | arr elems =>
      cases elems with
      | nil => simp [emptyArrayReply, hp]
      | cons e rest =>
        cases rest with
        | nil =>
          have h2 : singleElemSplit e = .ok [] := by
            simpa [parseBranch, hp] using h
          exact absurd rfl (singleElemSplit_ok_ne_nil e [] h2)
        | cons e2 rest2 => simp [parseBranch, hp] at h
    | null =>
      have h2 : nonArrayRecovery t Json.null = .ok [] := by
        simpa [parseBranch, hp] using h
      simpa [emptyArrayReply, hp] using nonArrayRecovery_ok_empty t _ h2
    | bool b =>
      have h2 : nonArrayRecovery t (Json.bool b) = .ok [] := by
        simpa [parseBranch, hp] using h
      simpa [emptyArrayReply, hp] using nonArrayRecovery_ok_empty t _ h2
    | num n =>
      have h2 : nonArrayRecovery t (Json.num n) = .ok [] := by
        simpa [parseBranch, hp] using h
      simpa [emptyArrayReply, hp] using nonArrayRecovery_ok_empty t _ h2
    | str s =>
      have h2 : nonArrayRecovery t (Json.str s) = .ok [] := by
        simpa [parseBranch, hp] using h
      simpa [emptyArrayReply, hp] using nonArrayRecovery_ok_empty t _ h2
    | obj fields =>
      have h2 : nonArrayRecovery t (Json.obj fields) = .ok [] := by
        simpa [parseBranch, hp] using h
      simpa [emptyArrayReply, hp] using nonArrayRecovery_ok_empty t _ h2

/-- Counterexample to claim C1: the upstream reply `[]` parses as an
empty JSON array and is returned verbatim, so the result has no segment
at all. -/
theorem identifySpeakers_empty_counterexample :
    identifySpeakers "Hello. There." (Except.ok (some "[]")) = [] ∧
    ¬ 1 ≤ (identifySpeakers "Hello. There." (Except.ok (some "[]"))).length :=
  ⟨rfl, by decide⟩

/-- Amended claim C1: `identifySpeakers` returns normally on every
transcript and reply, and returns at least one segment unless the reply
parses to an empty array (directly or through an empty
`segments`/`speakers` field), which is passed through as zero
segments. -/
theorem identifySpeakers_nonempty (t : String)
    (reply : Except Unit (Option String))
    (h : ∀ c, reply = Except.ok (some c) → emptyArrayReply c = false) :
    1 ≤ (identifySpeakers t reply).length := by
  have key : ¬ identifySpeakers t reply = [] := by
    cases reply with
    | error u => simp [identifySpeakers, mkSeg]
    | ok content =>
      cases content with
      | none => simp [identifySpeakers, identifySpeakersFromContent, mkSeg]
      | some c =>
        by_cases hc : c = ""
        · simp [identifySpeakers, identifySpeakersFromContent, hc, mkSeg]
        · cases hpb : parseBranch t c with
          | error u =>
            simpa [identifySpeakers, identifySpeakersFromContent, hc, hpb]
              using sentenceFallback_ne_nil t
          | ok segs =>
            have hne : ¬ segs = [] := by
              intro hnil
              subst hnil
              have hempty := parseBranch_ok_empty t c hpb
              rw [h c rfl] at hempty
              exact Bool.noConfusion hempty
            simpa [identifySpeakers, identifySpeakersFromContent, hc, hpb]
              using hne
  exact List.length_pos.mpr key

/-- Witness for the amended C1: a service error and an unparsable reply
both yield at least one segment. -/
theorem identifySpeakers_nonempty_witness :
    1 ≤ (identifySpeakers "Hello" (Except.error ())).length ∧
    1 ≤ (identifySpeakers "Hello" (Except.ok (some "x"))).length :=
  ⟨identifySpeakers_nonempty "Hello" (Except.error ())
      (fun _ hc => nomatch hc),
   identifySpeakers_nonempty "Hello" (Except.ok (some "x"))
      (fun c hc => by cases hc; rfl)⟩

/-- Counterexample to claim C2: on an unparsable reply with a one-sentence
transcript, the single full-transcript segment is labeled "Speaker 1",
not "Unknown". -/
theorem identifySpeakers_parsefail_label_counterexample :
    identifySpeakers "Hello" (Except.ok (some "x")) =
      [mkSeg "Speaker 1" "Hello"] ∧
    ¬ (identifySpeakers "Hello" (Except.ok (some "x"))).map segSpeakerName =
      [some "Unknown"] :=
  ⟨rfl, by decide⟩

/-- Amended claim C2: on total failure the result is one segment holding
the whole transcript, labeled "Speaker 1" when the reply fails to parse
and the transcript has at most two sentences, and "Unknown" when the
call throws or the reply content is missing. -/
theorem identifySpeakers_total_failure :
    (∀ t c, ¬ c = "" → jsonParse c = none →
      (splitSentences t).length ≤ 2 →
      identifySpeakers t (Except.ok (some c)) = [mkSeg "Speaker 1" t]) ∧
    (∀ t, identifySpeakers t (Except.error ()) = [mkSeg "Unknown" t]) ∧
    (∀ t, identifySpeakers t (Except.ok none) = [mkSeg "Unknown" t]) := by
  refine ⟨?_, fun t => rfl, fun t => rfl⟩
  intro t c hc hp hlen
  have hpb : parseBranch t c = .error () := by
    simp [parseBranch, hp]
  have hsf : sentenceFallback t = [mkSeg "Speaker 1" t] := by
    rw [sentenceFallback]
    split
    · rfl
    · next s0 rest hs =>
        rw [if_pos (hs ▸ hlen)]
  simp [identifySpeakers, identifySpeakersFromContent, hc, hpb, hsf]

/-- Witness for the amended C2 on a one-sentence transcript and an
unparsable reply. -/
theorem identifySpeakers_total_failure_witness :
    identifySpeakers "Hi" (Except.ok (some "x")) =
      [mkSeg "Speaker 1" "Hi"] ∧
    identifySpeakers "Hi" (Except.error ()) = [mkSeg "Unknown" "Hi"] :=
  ⟨identifySpeakers_total_failure.1 "Hi" "x" (by decide) rfl (by decide),
   identifySpeakers_total_failure.2.1 "Hi"⟩

/-- Claim C3: a reply that parses as a one-element array whose text has
at least two sentences is split at the midpoint sentence boundary into
exactly two segments, "Speaker 1" taking the first ceil(n/2) sentences
and "Speaker 2" the rest. -/
theorem identifySpeakers_single_collapse (t c : String) (e : Json)
    (s : String) (hc : ¬ c = "")
    (hp : jsonParse c = some (.arr [e]))
    (ht : jsGet e "text" = .ok (some (.str s)))
    (hn : 2 ≤ (splitSentences s).length) :
    identifySpeakers t (Except.ok (some c)) =
      [mkSeg "Speaker 1"
         (joinSpace ((splitSentences s).take
           (((splitSentences s).length + 1) / 2))),
       mkSeg "Speaker 2"
         (joinSpace ((splitSentences s).drop
           (((splitSentences s).length + 1) / 2)))] := by
  have hlen : 1 < (splitSentences s).length := hn
  have hpb : parseBranch t c =
      .ok [mkSeg "Speaker 1"
             (joinSpace ((splitSentences s).take
               (((splitSentences s).length + 1) / 2))),
           mkSeg "Speaker 2"
             (joinSpace ((splitSentences s).drop
               (((splitSentences s).length + 1) / 2)))] := by
    simp [parseBranch, hp, singleElemSplit, ht, hlen]
  simp [identifySpeakers, identifySpeakersFromContent, hc, hpb]

/-- Witness for C3 on the reply `[{"text": "A. B."}]`. -/
theorem identifySpeakers_single_collapse_witness :
    identifySpeakers "t" (Except.ok (some "[\x7b\"text\": \"A. B.\"\x7d]")) =
      [mkSeg "Speaker 1"
         (joinSpace ((splitSentences "A. B.").take
           (((splitSentences "A. B.").length + 1) / 2))),
       mkSeg "Speaker 2"
         (joinSpace ((splitSentences "A. B.").drop
           (((splitSentences "A. B.").length + 1) / 2)))] :=
  identifySpeakers_single_collapse "t" "[\x7b\"text\": \"A. B.\"\x7d]"
    (Json.obj [("text", Json.str "A. B.")]) "A. B." (by decide) rfl rfl
    (by decide)

/-- Appending one sentence to a non-empty run joins with one space. -/
theorem joinSpace_append_one (run : List String) (s : String)
    (h : ¬ run = []) :
    joinSpace (run ++ [s]) = joinSpace run ++ " " ++ s := by
  induction run with
  | nil => exact absurd rfl h
  | cons a rest ih =>
    cases rest with
    | nil => rfl
    | cons b rest2 =>
      rw [show (a :: b :: rest2) ++ [s] = a :: ((b :: rest2) ++ [s]) from rfl]
      rw [show (b :: rest2) ++ [s] = b :: (rest2 ++ [s]) from rfl]
      rw [joinSpace]
      rw [show b :: (rest2 ++ [s]) = (b :: rest2) ++ [s] from rfl]
      rw [ih (by simp)]
      rw [joinSpace]
      simp [strAppendAssoc]

/-- The claim-side signal agrees with the source-side signal. -/
theorem claimTurnSignal_eq (prev curr : String) :
    claimTurnSignal prev curr = speakerChangeSignal prev curr := by
  simp [claimTurnSignal, speakerChangeSignal, claimPrevPhrases,
    claimCurrPhrases, Bool.or_assoc]

/-- The source walk on a joined run equals the claim walk on the run. -/
theorem walkLoop_eq_claimWalk (rest : List String) :
    ∀ prev sp run acc, ¬ run = [] →
      walkLoop prev rest sp (joinSpace run) acc =
        acc ++ (claimWalk sp run prev rest).map
          (fun pr => mkSeg pr.1 (joinSpace pr.2)) := by
  induction rest with
  | nil =>
    intro prev sp run _
    simp [walkLoop, claimWalk]
  | cons s rest1 ih =>
    intro prev sp run acc hrun
    simp only [walkLoop, claimWalk]
    rw [claimTurnSignal_eq]
    by_cases h : speakerChangeSignal prev s = true
    · rw [if_pos h, if_pos h]
      have hih := ih s (otherSpeaker sp) [s]
        (acc ++ [mkSeg sp (joinSpace run)]) (by simp)
      rw [show joinSpace [s] = s from rfl] at hih
      rw [hih]
      simp [otherSpeaker]
    · rw [if_neg h, if_neg h]
      rw [show joinSpace run ++ " " ++ s = joinSpace (run ++ [s]) from
        (joinSpace_append_one run s hrun).symm]
      exact ih s sp (run ++ [s]) acc (by simp)

/-- On more than two sentences, the fallback is exactly the walk the
claim describes. -/
theorem sentenceFallback_eq_claim (t : String)
    (hn : 2 < (splitSentences t).length) :
    sentenceFallback t = claimHeuristicSegments (splitSentences t) := by
  cases hs : splitSentences t with
  | nil => rw [hs] at hn; simp at hn
  | cons s0 rest =>
    rw [hs] at hn
    simp only [sentenceFallback, claimHeuristicSegments, hs]
    rw [if_neg (Nat.not_le.mpr hn)]
    have hw := walkLoop_eq_claimWalk rest s0 "Speaker 1" [s0] [] (by simp)
    simpa using hw

/-- Claim C4: when the reply does not parse and the transcript has more
than two sentences, the result is the alternating walk over the
sentences described by the claim, starting at "Speaker 1" and switching
exactly when the turn-taking signal fires. -/
theorem identifySpeakers_heuristic_walk (t c : String)
    (hc : ¬ c = "") (hp : jsonParse c = none)
    (hn : 2 < (splitSentences t).length) :
    identifySpeakers t (Except.ok (some c)) =
      claimHeuristicSegments (splitSentences t) := by
  have hpb : parseBranch t c = .error () := by
    simp [parseBranch, hp]
  simp [identifySpeakers, identifySpeakersFromContent, hc, hpb,
    sentenceFallback_eq_claim t hn]

/-- Witness for C4 on a three-sentence transcript and an unparsable
reply. -/
theorem identifySpeakers_heuristic_walk_witness :
    identifySpeakers "Hi there. How are you? Good thanks."
        (Except.ok (some "x")) =
      claimHeuristicSegments
        (splitSentences "Hi there. How are you? Good thanks.") :=
  identifySpeakers_heuristic_walk "Hi there. How are you? Good thanks." "x"
    (by decide) rfl (by decide)
